import Mathlib

/-!
Verification development for the hygieia wastewater-ingestion pipeline.

The Lean definitions below are a shallow embedding of the program's four
source files:
* `csv_data.rs` — CSV row type and the Pacific-timezone datetime
  deserializer (`deserialize_pdt_datetime`, `parse_data`);
* `db.rs` — the persisted `WasteWaterSample` record,
  `insert_wastewater_sample` (insert-if-absent on the five-field natural
  key) and `insert_wastewater_samples` (transactional batch insert with
  per-row conversion-error tallying);
* `useful.rs` — `try_unix_timestamp`;
* `main.rs` — the ingest pipeline (parse, drop parse errors, batch
  insert) and the latest-vs-previous trend query.

Modelling conventions:
* SQLite storage is a list of rows (`Conn.table`) in insertion order;
  storage-write availability is injected through `Conn.writeFuel`
  (`none` = writes always succeed, `some k` = the next `k` INSERT
  statements succeed and the following one fails), which models the
  fallibility of `rusqlite` statement execution.
* A `rusqlite` transaction is modelled by running the batch against a
  working copy of the store and returning the original store whenever
  the batch fails (dropping an uncommitted transaction rolls it back).
* `f64` payloads (`normalized_pathogen_concentration`) are modelled as
  `Int`: the claims use this field only through equality and
  subtraction, never through float rounding behaviour.
* `chrono`/`chrono-tz` library behaviour is modelled from its documented
  semantics: `DateTime` instants are UTC seconds plus nanoseconds, and
  `US::Pacific` local-time resolution implements the post-2006 US DST
  rules (spring forward at 02:00 on the second Sunday of March, fall
  back at 02:00 on the first Sunday of November, offsets PST = UTC-8,
  PDT = UTC-7); `chrono` orders the `Ambiguous` pair by UTC instant,
  earliest first. Leap-second texts (second = 60) are out of scope of
  the model.
* Logging (`tracing`) is modelled as data where a claim depends on it:
  the batch function returns the counts record carried by its final
  `info!` line.
-/

namespace Hygieia

/-! ### Calendar arithmetic (model of `chrono` civil-date handling) -/

/-- Model of `chrono::NaiveDate`: a civil calendar date. -/
structure NaiveDate where
  year : Int
  month : Nat
  day : Nat
deriving DecidableEq, Repr

/-- Proleptic-Gregorian leap-year test. -/
def isLeapYear (y : Int) : Bool :=
  (y.emod 4 = 0 && y.emod 100 ≠ 0) || y.emod 400 = 0

/-- Number of days in a civil month. -/
def daysInMonth (y : Int) (m : Nat) : Nat :=
  if m = 2 then (if isLeapYear y then 29 else 28)
  else if m = 4 || m = 6 || m = 9 || m = 11 then 30
  else 31

/-- Days since 1970-01-01 of a civil date (Howard Hinnant's
`days_from_civil` algorithm, as used by civil-calendar libraries). -/
def daysFromCivil (y : Int) (m d : Nat) : Int :=
  let y2 : Int := if m ≤ 2 then y - 1 else y
  let era : Int := y2.fdiv 400
  let yoe : Int := y2 - era * 400
  let mp : Int := (m : Int) + (if 2 < m then -3 else 9)
  let doy : Int := (153 * mp + 2).fdiv 5 + (d : Int) - 1
  let doe : Int := yoe * 365 + yoe.fdiv 4 - yoe.fdiv 100 + doy
  era * 146097 + doe - 719468

/-- Day of week of a civil date, `0` = Sunday (1970-01-01 was a
Thursday). -/
def dayOfWeek (y : Int) (m d : Nat) : Int :=
  (daysFromCivil y m d + 4).emod 7

/-- Day-of-month of the second Sunday of March of a year: the US DST
spring-forward day. -/
def secondSundayOfMarch (y : Int) : Nat :=
  ((7 - dayOfWeek y 3 1).emod 7).toNat + 1 + 7

/-- Day-of-month of the first Sunday of November of a year: the US DST
fall-back day. -/
def firstSundayOfNovember (y : Int) : Nat :=
  ((7 - dayOfWeek y 11 1).emod 7).toNat + 1

/-! ### Pacific local-time resolution (model of
`NaiveDateTime::and_local_timezone(US::Pacific)`) -/

/-- Model of `chrono::NaiveDateTime`: a civil date-time with
sub-second precision. -/
structure NaiveDateTime where
  date : NaiveDate
  hour : Nat
  minute : Nat
  second : Nat
  nano : Nat
deriving DecidableEq, Repr

/-- Model of a `chrono::DateTime` value: the UTC instant it denotes
(seconds since the Unix epoch plus nanoseconds). -/
structure PacificInstant where
  utcSec : Int
  nano : Nat
deriving DecidableEq, Repr

/-- Strict chronological order on instants. -/
def instantLt (a b : PacificInstant) : Bool :=
  decide (a.utcSec < b.utcSec) ||
    (decide (a.utcSec = b.utcSec) && decide (a.nano < b.nano))

/-- Model of `chrono::MappedLocalTime` (also named `LocalResult`): the
result of resolving a civil time in a time zone.  `ambiguous` carries
the earliest UTC instant first, as `chrono` documents. -/
inductive MappedLocalTime where
  | single (t : PacificInstant)
  | ambiguous (earliest latest : PacificInstant)
  | nonexistent
deriving DecidableEq, Repr

/-- Seconds in the PST offset (UTC-8): a PST civil time is this many
seconds behind UTC. -/
def pstShift : Int := 28800

/-- Seconds in the PDT offset (UTC-7). -/
def pdtShift : Int := 25200

/-- Model of `and_local_timezone(US::Pacific)`: resolve a civil
date-time to zero, one or two UTC instants under the post-2006 US
Pacific DST rules. -/
def localToPacific (ndt : NaiveDateTime) : MappedLocalTime :=
  let dte := ndt.date
  let t : Nat := ndt.hour * 3600 + ndt.minute * 60 + ndt.second
  let base : Int := daysFromCivil dte.year dte.month dte.day * 86400 + (t : Int)
  let pst : PacificInstant := ⟨base + pstShift, ndt.nano⟩
  let pdt : PacificInstant := ⟨base + pdtShift, ndt.nano⟩
  let sf := secondSundayOfMarch dte.year
  let fb := firstSundayOfNovember dte.year
  let md := dte.month * 100 + dte.day
  if md < 300 + sf then .single pst
  else if md = 300 + sf then
    (if t < 7200 then .single pst
     else if t < 10800 then .nonexistent
     else .single pdt)
  else if md < 1100 + fb then .single pdt
  else if md = 1100 + fb then
    (if t < 3600 then .single pdt
     else if t < 7200 then .ambiguous pdt pst
     else .single pst)
  else .single pst

/-! ### Text parsing (model of
`NaiveDateTime::parse_from_str(&s, "%Y-%m-%d %H:%M:%S.%f")`) -/

/-- The numeric value of a decimal digit character, if it is one. -/
def digitVal (c : Char) : Option Nat :=
  if c.isDigit then some (c.toNat - 48) else none

/-- Consume the longest prefix of decimal digits. -/
def takeDigits : List Char → List Nat × List Char
  | [] => ([], [])
  | c :: cs =>
    match digitVal c with
    | some v =>
      let r := takeDigits cs
      (v :: r.1, r.2)
    | none => ([], c :: cs)

/-- Consume at most `n` leading decimal digits. -/
def takeDigitsUpTo : Nat → List Char → List Nat × List Char
  | 0, cs => ([], cs)
  | _ + 1, [] => ([], [])
  | n + 1, c :: cs =>
    match digitVal c with
    | some v =>
      let r := takeDigitsUpTo n cs
      (v :: r.1, r.2)
    | none => ([], c :: cs)

/-- Decimal value of a digit sequence. -/
def digitsToNat (ds : List Nat) : Nat :=
  ds.foldl (fun a d => a * 10 + d) 0

/-- Nanoseconds denoted by a left-aligned fractional-digit sequence of
at most nine digits (`chrono`'s `%f` parsing). -/
def fracToNano (ds : List Nat) : Nat :=
  digitsToNat ds * 10 ^ (9 - ds.length)

/-- Consume one expected character. -/
def expectChar (c : Char) : List Char → Option (List Char)
  | [] => none
  | x :: xs => if x = c then some xs else none

/-- Consume an unbounded decimal number (at least one digit). -/
def parseNatAll (cs : List Char) : Option (Nat × List Char) :=
  match takeDigits cs with
  | ([], _) => none
  | (ds, rest) => some (digitsToNat ds, rest)

/-- Consume a decimal number of at most `n` digits (at least one). -/
def parseNatUpTo (n : Nat) (cs : List Char) : Option (Nat × List Char) :=
  match takeDigitsUpTo n cs with
  | ([], _) => none
  | (ds, rest) => some (digitsToNat ds, rest)

/-- Model of `NaiveDateTime::parse_from_str` with the format string
`"%Y-%m-%d %H:%M:%S.%f"`: a signed greedy year, two-digit-bounded
month, day, hour, minute and second fields, a literal dot, then a
left-aligned fraction of at most nine digits; the whole input must be
consumed and every field must be in range. -/
def parsePacificNaive (s : String) : Option NaiveDateTime := do
  let cs := s.toList
  let (neg, cs0) :=
    match cs with
    | '-' :: rest => (true, rest)
    | other => (false, other)
  let (yAbs, cs1) ← parseNatAll cs0
  let cs2 ← expectChar '-' cs1
  let (mo, cs3) ← parseNatUpTo 2 cs2
  let cs4 ← expectChar '-' cs3
  let (d, cs5) ← parseNatUpTo 2 cs4
  let cs6 ← expectChar ' ' cs5
  let (h, cs7) ← parseNatUpTo 2 cs6
  let cs8 ← expectChar ':' cs7
  let (mi, cs9) ← parseNatUpTo 2 cs8
  let cs10 ← expectChar ':' cs9
  let (sec, cs11) ← parseNatUpTo 2 cs10
  let cs12 ← expectChar '.' cs11
  let (fds, cs13) := takeDigitsUpTo 9 cs12
  if fds.isEmpty then none
  else if !cs13.isEmpty then none
  else
    let year : Int := if neg then -(yAbs : Int) else (yAbs : Int)
    if 1 ≤ mo ∧ mo ≤ 12 ∧ 1 ≤ d ∧ d ≤ daysInMonth year mo ∧
        h ≤ 23 ∧ mi ≤ 59 ∧ sec ≤ 59 then
      some ⟨⟨year, mo, d⟩, h, mi, sec, fracToNano fds⟩
    else none

/-- Model of `deserialize_pdt_datetime` (`csv_data.rs`): parse the text
as a naive date-time, resolve it in US Pacific time, take the single
instant, take the later instant of an ambiguous pair, and fail on a
nonexistent civil time with an error message carrying the input text
(the text of a `chrono` parse failure is abstracted). -/
def deserialize_pdt_datetime (s : String) : Except String PacificInstant :=
  match parsePacificNaive s with
  | none => .error ("input is not a valid naive datetime: " ++ s)
  | some ndt =>
    match localToPacific ndt with
    | .single date_time => .ok date_time
    | .ambiguous _ latest => .ok latest
    | .nonexistent =>
      .error ("Datetime " ++ s ++ " is invalid for Pacific timezone.")

/-! ### Persisted records and the deduplicating store (model of `db.rs`) -/

/-- Model of the persisted `WasteWaterSample` record (`db.rs`).  The
natural key is the combination of `sample_collection_date`,
`site_name`, `county`, `pcr_pathogen_target` and `pcr_gene_target`. -/
structure WasteWaterSample where
  sample_collection_date : NaiveDate
  site_name : String
  county : String
  pcr_pathogen_target : String
  pcr_gene_target : String
  normalized_pathogen_concentration : Int
  date_updated : PacificInstant
  poll_timestamp : Nat
deriving DecidableEq, Repr

/-- The `WHERE` clause of `SELECT_SAMPLE_SQL`: an existing row matches
the candidate sample exactly on the five natural-key columns. -/
def sameNaturalKey (existing sample : WasteWaterSample) : Bool :=
  decide (existing.sample_collection_date = sample.sample_collection_date) &&
  decide (existing.site_name = sample.site_name) &&
  decide (existing.county = sample.county) &&
  decide (existing.pcr_pathogen_target = sample.pcr_pathogen_target) &&
  decide (existing.pcr_gene_target = sample.pcr_gene_target)

/-- Model of a `rusqlite::Connection` (or of a transaction's view of
one): the `wastewater_samples` table in insertion order, plus the
write-availability fault model (`none` = every INSERT succeeds,
`some k` = the next `k` INSERTs succeed, after which the storage
becomes unavailable). -/
structure Conn where
  table : List WasteWaterSample
  writeFuel : Option Nat
deriving DecidableEq, Repr

/-- Whether the next INSERT statement will succeed. -/
def writeAvailable : Option Nat → Bool
  | none => true
  | some n => decide (0 < n)

/-- Consume one successful INSERT from the fault model. -/
def writeConsume : Option Nat → Option Nat
  | none => none
  | some n => some (n - 1)

/-- Model of the fatal storage failure mode (an `rusqlite`/`eyre`
error escaping a statement execution). -/
inductive DbError where
  | storageUnavailable
deriving DecidableEq, Repr

/-- Model of `insert_wastewater_sample` (`db.rs`): look the sample's
natural key up with `SELECT_SAMPLE_SQL`; if a row exists, return
`false` and write nothing; otherwise execute `INSERT_SAMPLE_SQL`
(which appends the row, or fails with a storage error when the store
is unavailable) and return `true`. -/
def insert_wastewater_sample (conn : Conn) (sample : WasteWaterSample) :
    Except DbError (Bool × Conn) :=
  match conn.table.find? (fun existing => sameNaturalKey existing sample) with
  | some _ => .ok (false, conn)
  | none =>
    if writeAvailable conn.writeFuel then
      .ok (true, ⟨conn.table ++ [sample], writeConsume conn.writeFuel⟩)
    else
      .error .storageUnavailable

/-- The counts carried by the final `info!` line of
`insert_wastewater_samples`: total rows seen, conversion errors,
duplicate skips, and `total_insertions = total_sample - errors - skip`. -/
structure BatchReport where
  total_sample : Nat
  errors : Nat
  skip : Nat
  total_insertions : Nat
deriving DecidableEq, Repr

/-- Whether the per-row conversion (`try_into`) of an input element
fails. -/
def convFails {S E : Type} (tryInto : S → Except E WasteWaterSample) (x : S) : Bool :=
  match tryInto x with
  | .ok _ => false
  | .error _ => true

/-- The loop body of `insert_wastewater_samples`, threading the
transaction's view of the store and the three counters.  A conversion
error increments `errors` and continues; a duplicate increments
`skip`; a storage error propagates immediately (the `?` operator). -/
def insertSamplesAux {S E : Type} (tryInto : S → Except E WasteWaterSample) :
    List S → Conn → Nat → Nat → Nat → Except DbError (Conn × BatchReport)
  | [], conn, total_sample, errors, skip =>
    .ok (conn, ⟨total_sample, errors, skip, total_sample - errors - skip⟩)
  | x :: xs, conn, total_sample, errors, skip =>
    match tryInto x with
    | .ok sample =>
      match insert_wastewater_sample conn sample with
      | .ok (inserted, conn2) =>
        insertSamplesAux tryInto xs conn2 (total_sample + 1) errors
          (if inserted then skip else skip + 1)
      | .error e => .error e
    | .error _ =>
      insertSamplesAux tryInto xs conn (total_sample + 1) (errors + 1) skip

/-- Model of `insert_wastewater_samples` (`db.rs`): open a transaction
(a working copy of the store), run the counting loop over the input
sequence, and commit on success.  On a storage error the uncommitted
transaction is dropped, so the caller's store is returned unchanged
(rollback).  The returned `BatchReport` is the counts record the
function logs on success. -/
def insert_wastewater_samples {S E : Type} (conn : Conn) (samples : List S)
    (tryInto : S → Except E WasteWaterSample) :
    Conn × Except DbError BatchReport :=
  match insertSamplesAux tryInto samples conn 0 0 0 with
  | .ok (conn2, report) => (conn2, .ok report)
  | .error e => (conn, .error e)

/-! ### Normalization (model of `useful.rs` and the `TryFrom` impl) -/

/-- Model of `std::time::SystemTimeError` as produced by
`duration_since(UNIX_EPOCH)`. -/
inductive SystemTimeError where
  | beforeUnixEpoch
deriving DecidableEq, Repr

/-- Model of `try_unix_timestamp` (`useful.rs`): the wall clock is the
parameter `now`, in signed seconds relative to the Unix epoch; the
read fails exactly when the clock is before the epoch. -/
def try_unix_timestamp (now : Int) : Except SystemTimeError Nat :=
  if now < 0 then .error .beforeUnixEpoch else .ok now.toNat

/-- Model of the parsed CSV row `WasteWaterCsvRow` (`csv_data.rs`). -/
structure WasteWaterCsvRow where
  sample_collection_date : NaiveDate
  site_name : String
  county : String
  pcr_pathogen_target : String
  pcr_gene_target : String
  normalized_pathogen_concentration : Int
  date_updated : PacificInstant
deriving DecidableEq, Repr

/-- Model of `impl TryFrom<WasteWaterCsvRow> for WasteWaterSample`
(`db.rs`): read the wall clock for `poll_timestamp` (failing with a
`SystemTimeError` when the clock is before the epoch), then copy every
row field; `fixed_offset()` preserves the instant and is the
identity here. -/
def wasteWaterSample_try_from (now : Int) (row : WasteWaterCsvRow) :
    Except SystemTimeError WasteWaterSample := do
  let poll_timestamp ← try_unix_timestamp now
  pure ⟨row.sample_collection_date, row.site_name, row.county,
    row.pcr_pathogen_target, row.pcr_gene_target,
    row.normalized_pathogen_concentration, row.date_updated, poll_timestamp⟩

/-! ### The assembled pipeline (model of `main.rs`) -/

/-- Model of the ingest portion of `main` (`main.rs` lines 90-91):
`parse_data` yields a sequence of per-row parse results,
`.filter_map(|r| r.ok())` silently drops the failed ones, and the
surviving rows are handed to `insert_wastewater_samples` with the
`TryFrom` conversion at the current wall clock. -/
def ingest {ParseErr : Type} (conn : Conn)
    (parsed : List (Except ParseErr WasteWaterCsvRow)) (now : Int) :
    Conn × Except DbError BatchReport :=
  insert_wastewater_samples conn (parsed.filterMap Except.toOption)
    (wasteWaterSample_try_from now)

/-! ### The trend query (model of the SQL in `main.rs`) -/

/-- Lexicographic order on civil dates; agrees with SQLite's ordering
of the `TEXT`-encoded `sample_collection_date` column. -/
def dateLe (a b : NaiveDate) : Bool :=
  decide (a.year < b.year) ||
    (decide (a.year = b.year) &&
      (decide (a.month < b.month) ||
        (decide (a.month = b.month) && decide (a.day ≤ b.day))))

/-- The ordering used by `ORDER BY sample_collection_date DESC`:
`a` ranks no later than `b` when `a`'s date is no earlier. -/
def trendOrder (a b : WasteWaterSample) : Prop :=
  dateLe b.sample_collection_date a.sample_collection_date = true

instance : DecidableRel trendOrder := fun a b =>
  inferInstanceAs (Decidable
    (dateLe b.sample_collection_date a.sample_collection_date = true))

/-- The rows matching the query's `WHERE county = ?1 AND
pcr_pathogen_target = ?2` filter. -/
def trendMatches (table : List WasteWaterSample) (county variant : String) :
    List WasteWaterSample :=
  table.filter (fun s =>
    decide (s.county = county) && decide (s.pcr_pathogen_target = variant))

/-- The `ranked_samples` CTE: the matching rows ordered by
`sample_collection_date DESC` (`ROW_NUMBER` numbers this order). -/
def rankedSamples (table : List WasteWaterSample) (county variant : String) :
    List WasteWaterSample :=
  List.insertionSort trendOrder (trendMatches table county variant)

/-- Model of the trend query of `main` (`main.rs` lines 97-130) for one
(county, variant) pair: `none` models `query_row` returning no row
(the run's "no data" error branch); otherwise the latest value and
date are returned together with the `LEFT JOIN`'s optional difference
`latest - previous` and previous date, which are `NULL` when no
second-ranked row exists. -/
def trend_query (table : List WasteWaterSample) (county variant : String) :
    Option (Int × NaiveDate × Option Int × Option NaiveDate) :=
  match rankedSamples table county variant with
  | [] => none
  | [s1] =>
    some (s1.normalized_pathogen_concentration, s1.sample_collection_date,
      none, none)
  | s1 :: s2 :: _ =>
    some (s1.normalized_pathogen_concentration, s1.sample_collection_date,
      some (s1.normalized_pathogen_concentration -
        s2.normalized_pathogen_concentration),
      some s2.sample_collection_date)

/-! ### Concrete fixtures used to evaluate the definitions -/

/-- A concrete sample generator: the natural key varies with `site`
and the payload with `conc`. -/
def mkSample (site : String) (conc : Int) : WasteWaterSample :=
  ⟨⟨2024, 6, 1⟩, site, "King", "sars-cov-2", "N1", conc, ⟨1717300000, 0⟩, 1717300000⟩

/-- A sample sharing `mkSample site _`'s natural key but with a
different concentration, a different `date_updated` and a different
`poll_timestamp`. -/
def mkLaterDup (site : String) (conc : Int) : WasteWaterSample :=
  ⟨⟨2024, 6, 1⟩, site, "King", "sars-cov-2", "N1", conc, ⟨1717400000, 0⟩, 1717400000⟩

/-- A concrete CSV row. -/
def mkRow (site : String) (conc : Int) : WasteWaterCsvRow :=
  ⟨⟨2024, 6, 1⟩, site, "King", "sars-cov-2", "N1", conc, ⟨1717300000, 0⟩⟩

/-- A sample whose trend-query identity varies by county, variant,
collection date and concentration. -/
def mkTrendSample (county variant : String) (date : NaiveDate) (conc : Int) :
    WasteWaterSample :=
  ⟨date, "site A", county, variant, "N1", conc, ⟨1717300000, 0⟩, 1717300000⟩

/-- A ten-element batch of pairwise-distinct fresh samples (pre-split
into conversion results), used against a store whose writes fail after
three INSERTs. -/
def c3Batch : List (Except Unit WasteWaterSample) :=
  [.ok (mkSample "s0" 0), .ok (mkSample "s1" 1), .ok (mkSample "s2" 2),
   .ok (mkSample "s3" 3), .ok (mkSample "s4" 4), .ok (mkSample "s5" 5),
   .ok (mkSample "s6" 6), .ok (mkSample "s7" 7), .ok (mkSample "s8" 8),
   .ok (mkSample "s9" 9)]

/-- The spec's example batch: ten inputs of which two fail conversion
and one duplicates a row already in the store. -/
def c4Batch : List (Except Unit WasteWaterSample) :=
  [.ok (mkSample "f0" 0), .error (), .ok (mkSample "f1" 1),
   .ok (mkLaterDup "dup" 99), .ok (mkSample "f2" 2), .ok (mkSample "f3" 3),
   .error (), .ok (mkSample "f4" 4), .ok (mkSample "f5" 5),
   .ok (mkSample "f6" 6)]

/-- A store already holding the row that `c4Batch`'s duplicate
re-publishes. -/
def c4Conn : Conn := ⟨[mkSample "dup" 7], none⟩

/-- A store for exercising the trend query: two rows match the
(King, RSV) filter and one does not. -/
def c8Table : List WasteWaterSample :=
  [mkTrendSample "King" "RSV" ⟨2024, 6, 1⟩ 4,
   mkTrendSample "King" "RSV" ⟨2024, 6, 2⟩ 7,
   mkTrendSample "Pierce" "RSV" ⟨2024, 6, 3⟩ 9]

/-- The store after running `c4Batch` against `c4Conn`: the original
row followed by the seven fresh inserts, in input order. -/
def c4FinalConn : Conn :=
  ⟨[mkSample "dup" 7, mkSample "f0" 0, mkSample "f1" 1, mkSample "f2" 2,
    mkSample "f3" 3, mkSample "f4" 4, mkSample "f5" 5, mkSample "f6" 6], none⟩

/-! ## Helper lemmas about the store -/

theorem sameNaturalKey_refl (s : WasteWaterSample) : sameNaturalKey s s = true := by
  simp [sameNaturalKey]

theorem insert_wastewater_sample_of_fresh (conn : Conn) (s : WasteWaterSample)
    (hfresh : ∀ r ∈ conn.table, sameNaturalKey r s = false)
    (hfuel : writeAvailable conn.writeFuel = true) :
    insert_wastewater_sample conn s =
      .ok (true, ⟨conn.table ++ [s], writeConsume conn.writeFuel⟩) := by
  have hfind : conn.table.find? (fun existing => sameNaturalKey existing s) = none := by
    rw [List.find?_eq_none]
    intro r hr
    simp [hfresh r hr]
  simp [insert_wastewater_sample, hfind, hfuel]

theorem insert_wastewater_sample_of_dup (conn : Conn) (s r : WasteWaterSample)
    (hr : r ∈ conn.table) (hkey : sameNaturalKey r s = true) :
    insert_wastewater_sample conn s = .ok (false, conn) := by
  have hsome : (conn.table.find? (fun existing => sameNaturalKey existing s)).isSome :=
    List.find?_isSome.mpr ⟨r, hr, hkey⟩
  cases hfind : conn.table.find? (fun existing => sameNaturalKey existing s) with
  | none => rw [hfind] at hsome; simp at hsome
  | some x => simp [insert_wastewater_sample, hfind]

theorem insert_wastewater_sample_ok_cases {conn : Conn} {s : WasteWaterSample}
    {b : Bool} {conn2 : Conn}
    (h : insert_wastewater_sample conn s = .ok (b, conn2)) :
    (b = true ∧ conn2.table = conn.table ++ [s]) ∨ (b = false ∧ conn2 = conn) := by
  unfold insert_wastewater_sample at h
  cases hfind : conn.table.find? (fun existing => sameNaturalKey existing s) with
  | some x =>
    rw [hfind] at h
    simp only [Except.ok.injEq, Prod.mk.injEq] at h
    exact Or.inr ⟨h.1.symm, h.2.symm⟩
  | none =>
    rw [hfind] at h
    by_cases hw : writeAvailable conn.writeFuel = true
    · rw [if_pos hw] at h
      simp only [Except.ok.injEq, Prod.mk.injEq] at h
      exact Or.inl ⟨h.1.symm, by rw [← h.2]⟩
    · rw [if_neg hw] at h
      simp at h

/-! ## Claim theorems: insert-if-absent -/

/-- C1: for every sample `s`, when no stored row has `s`'s natural key
and the storage is available, `insert_wastewater_sample` returns
`true` on the first call, `false` on the second call with the same
sample, and the store then holds exactly one row with `s`'s five-field
natural key. -/
theorem insertIfAbsent_idempotent (conn : Conn) (s : WasteWaterSample)
    (hfresh : ∀ r ∈ conn.table, sameNaturalKey r s = false)
    (hfuel : writeAvailable conn.writeFuel = true) :
    ∃ conn2 : Conn,
      insert_wastewater_sample conn s = .ok (true, conn2) ∧
      insert_wastewater_sample conn2 s = .ok (false, conn2) ∧
      conn2.table.countP (fun r => sameNaturalKey r s) = 1 := by
  refine ⟨⟨conn.table ++ [s], writeConsume conn.writeFuel⟩,
    insert_wastewater_sample_of_fresh conn s hfresh hfuel, ?_, ?_⟩
  · exact insert_wastewater_sample_of_dup _ s s (by simp) (sameNaturalKey_refl s)
  · have h0 : conn.table.countP (fun r => sameNaturalKey r s) = 0 :=
      List.countP_eq_zero.mpr (fun r hr => by simp [hfresh r hr])
    simp [List.countP_append, h0, List.countP_cons, sameNaturalKey_refl]

/-- Witness for C1 at a concrete sample and the empty store. -/
theorem insertIfAbsent_idempotent_witness :
    ∃ conn2 : Conn,
      insert_wastewater_sample ⟨[], none⟩ (mkSample "West Point" 5) = .ok (true, conn2) ∧
      insert_wastewater_sample conn2 (mkSample "West Point" 5) = .ok (false, conn2) ∧
      conn2.table.countP (fun r => sameNaturalKey r (mkSample "West Point" 5)) = 1 :=
  insertIfAbsent_idempotent ⟨[], none⟩ (mkSample "West Point" 5)
    (by simp) (by decide)

/-- C2: for every stored row `r` and later sample `s` with the same
five-field natural key but a different `normalized_concentration` or
`date_updated`, `insert_wastewater_sample` returns `false` and leaves
the store — hence every field of `r`, including
`normalized_pathogen_concentration`, `date_updated` and
`poll_timestamp` — entirely unchanged. -/
theorem insertIfAbsent_keeps_first (conn : Conn) (s r : WasteWaterSample)
    (hr : r ∈ conn.table) (hkey : sameNaturalKey r s = true)
    (_hdiff : s.normalized_pathogen_concentration ≠ r.normalized_pathogen_concentration ∨
      s.date_updated ≠ r.date_updated) :
    insert_wastewater_sample conn s = .ok (false, conn) :=
  insert_wastewater_sample_of_dup conn s r hr hkey

/-- Witness for C2: a re-published sample with the same key but a
different concentration and `date_updated` is skipped and the stored
row keeps its first-seen fields. -/
theorem insertIfAbsent_keeps_first_witness :
    insert_wastewater_sample ⟨[mkSample "West Point" 5], none⟩ (mkLaterDup "West Point" 7) =
      .ok (false, ⟨[mkSample "West Point" 5], none⟩) :=
  insertIfAbsent_keeps_first ⟨[mkSample "West Point" 5], none⟩
    (mkLaterDup "West Point" 7) (mkSample "West Point" 5)
    (by simp) (by decide) (by decide)

/-! ## Claim theorems: transactional batch insert -/

/-- C3: whenever the batch insert fails, the failure is the storage
error and the caller's store is returned unchanged — the transaction's
writes are all rolled back, so zero new rows from the batch persist. -/
theorem insertBatch_rollback_on_storage_failure {S E : Type}
    (conn : Conn) (samples : List S) (tryInto : S → Except E WasteWaterSample)
    (e : DbError)
    (herr : (insert_wastewater_samples conn samples tryInto).2 = .error e) :
    (insert_wastewater_samples conn samples tryInto).1 = conn ∧
      e = DbError.storageUnavailable := by
  refine ⟨?_, by cases e; rfl⟩
  unfold insert_wastewater_samples at herr ⊢
  cases h : insertSamplesAux tryInto samples conn 0 0 0 with
  | ok p =>
    obtain ⟨c2, rep⟩ := p
    rw [h] at herr
    simp at herr
  | error e2 => rfl

/-- Witness for C3: with storage that becomes unavailable after three
INSERTs, a batch of ten fresh samples fails with the storage error and
the store still holds its original (empty) contents. -/
theorem insertBatch_rollback_witness :
    (insert_wastewater_samples ⟨[], some 3⟩ c3Batch (fun x => x)).2 =
        .error DbError.storageUnavailable ∧
      (insert_wastewater_samples ⟨[], some 3⟩ c3Batch (fun x => x)).1 = ⟨[], some 3⟩ :=
  ⟨by rfl,
    (insertBatch_rollback_on_storage_failure ⟨[], some 3⟩ c3Batch (fun x => x)
      DbError.storageUnavailable (by rfl)).1⟩

theorem insertSamplesAux_ok_spec {S E : Type} (tryInto : S → Except E WasteWaterSample) :
    ∀ (xs : List S) (conn : Conn) (t e k : Nat) (conn2 : Conn) (rep : BatchReport),
      insertSamplesAux tryInto xs conn t e k = .ok (conn2, rep) →
      rep.total_sample = t + xs.length ∧
      rep.errors = e + xs.countP (convFails tryInto) ∧
      k ≤ rep.skip ∧
      conn.table.length ≤ conn2.table.length ∧
      rep.errors + rep.skip + conn2.table.length =
        e + k + conn.table.length + xs.length ∧
      rep.total_insertions = rep.total_sample - rep.errors - rep.skip := by
  intro xs
  induction xs with
  | nil =>
    intro conn t e k conn2 rep h
    simp only [insertSamplesAux, Except.ok.injEq, Prod.mk.injEq] at h
    obtain ⟨hc, hr⟩ := h
    subst hc
    subst hr
    simp
  | cons x xs ih =>
    intro conn t e k conn2 rep h
    simp only [insertSamplesAux] at h
    cases hconv : tryInto x with
    | ok sample =>
      simp only [hconv] at h
      have hcnt : (x :: xs).countP (convFails tryInto) = xs.countP (convFails tryInto) :=
        List.countP_cons_of_neg _ _ (by simp [convFails, hconv])
      cases hins : insert_wastewater_sample conn sample with
      | ok p =>
        obtain ⟨inserted, conn3⟩ := p
        simp only [hins] at h
        rcases insert_wastewater_sample_ok_cases hins with ⟨hb, htab⟩ | ⟨hb, heq⟩
        · subst hb
          simp only [if_pos rfl] at h
          have hlen : conn3.table.length = conn.table.length + 1 := by
            rw [htab]; simp
          obtain ⟨h1, h2, h3, h4, h5, h6⟩ := ih conn3 (t + 1) e k conn2 rep h
          rw [List.length_cons, hcnt]
          exact ⟨by omega, by omega, h3, by omega, by omega, h6⟩
        · subst hb
          simp only [Bool.false_eq_true, if_neg, not_false_iff] at h
          have hlen : conn3.table.length = conn.table.length := by rw [heq]
          obtain ⟨h1, h2, h3, h4, h5, h6⟩ := ih conn3 (t + 1) e (k + 1) conn2 rep h
          rw [List.length_cons, hcnt]
          exact ⟨by omega, by omega, by omega, by omega, by omega, h6⟩
      | error e2 =>
        simp only [hins] at h
        exact (Except.noConfusion h)
    | error err =>
      simp only [hconv] at h
      have hcnt : (x :: xs).countP (convFails tryInto) = xs.countP (convFails tryInto) + 1 :=
        List.countP_cons_of_pos _ _ (by simp [convFails, hconv])
      obtain ⟨h1, h2, h3, h4, h5, h6⟩ := ih conn (t + 1) (e + 1) k conn2 rep h
      rw [List.length_cons, hcnt]
      exact ⟨by omega, by omega, h3, h4, by omega, h6⟩

/-- C4: on success the batch insert reports the four counts: the total
equals the number of inputs, the conversion-failure tally counts
exactly the inputs whose conversion fails, the inserted, skipped and
failed counts partition the total, and the inserted count equals the
number of new rows now in the store — no failure tally is dropped. -/
theorem insertBatch_reports_counts {S E : Type} (conn : Conn) (samples : List S)
    (tryInto : S → Except E WasteWaterSample) (conn2 : Conn) (rep : BatchReport)
    (h : insert_wastewater_samples conn samples tryInto = (conn2, .ok rep)) :
    rep.total_sample = samples.length ∧
    rep.errors = samples.countP (convFails tryInto) ∧
    rep.total_insertions + rep.errors + rep.skip = rep.total_sample ∧
    conn2.table.length = conn.table.length + rep.total_insertions := by
  unfold insert_wastewater_samples at h
  cases haux : insertSamplesAux tryInto samples conn 0 0 0 with
  | error e =>
    rw [haux] at h
    simp at h
  | ok p =>
    obtain ⟨c3, rep3⟩ := p
    rw [haux] at h
    simp only [Prod.mk.injEq, Except.ok.injEq] at h
    obtain ⟨hc, hr⟩ := h
    subst hc
    subst hr
    obtain ⟨h1, h2, h3, h4, h5, h6⟩ :=
      insertSamplesAux_ok_spec tryInto samples conn 0 0 0 _ _ haux
    exact ⟨by omega, by omega, by omega, by omega⟩

/-- Witness for C4 at the spec's example shape: ten inputs, two failing
conversion, one duplicating a stored row — the report is
`inserted = 7`, `skipped = 1`, `failed = 2`, `total = 10`. -/
theorem insertBatch_reports_counts_witness :
    insert_wastewater_samples c4Conn c4Batch (fun x => x) =
        (c4FinalConn, .ok ⟨10, 2, 1, 7⟩) ∧
      ((10 : Nat) = c4Batch.length ∧
        (2 : Nat) = c4Batch.countP (convFails (fun x => x)) ∧
        7 + 2 + 1 = (10 : Nat) ∧
        c4FinalConn.table.length = c4Conn.table.length + 7) := by
  have h : insert_wastewater_samples c4Conn c4Batch (fun x => x) =
      (c4FinalConn, .ok ⟨10, 2, 1, 7⟩) := by rfl
  exact ⟨h, insertBatch_reports_counts c4Conn c4Batch (fun x => x) c4FinalConn ⟨10, 2, 1, 7⟩ h⟩

/-! ## Claim theorems: clock failure during normalization -/

theorem wasteWaterSample_try_from_clockFail (now : Int) (hnow : now < 0)
    (row : WasteWaterCsvRow) :
    wasteWaterSample_try_from now row = .error .beforeUnixEpoch := by
  simp [wasteWaterSample_try_from, try_unix_timestamp, hnow, Except.bind]

theorem insertSamplesAux_allErrors {S E : Type} (tryInto : S → Except E WasteWaterSample) :
    ∀ (xs : List S) (conn : Conn) (t e k : Nat),
      (∀ x ∈ xs, convFails tryInto x = true) →
      insertSamplesAux tryInto xs conn t e k =
        .ok (conn, ⟨t + xs.length, e + xs.length, k,
          t + xs.length - (e + xs.length) - k⟩) := by
  intro xs
  induction xs with
  | nil => intro conn t e k _; simp [insertSamplesAux]
  | cons x xs ih =>
    intro conn t e k hall
    have hx := hall x (by simp)
    cases hconv : tryInto x with
    | ok sample => exfalso; simp [convFails, hconv] at hx
    | error err =>
      simp only [insertSamplesAux, hconv]
      rw [ih conn (t + 1) (e + 1) k (fun y hy => hall y (by simp [hy]))]
      simp only [Except.ok.injEq, Prod.mk.injEq, BatchReport.mk.injEq,
        List.length_cons, true_and]
      omega

/-- C5 counterexample: with the system clock one second before the
Unix epoch (every `try_unix_timestamp` read fails), a two-row batch
run does not halt — it completes, returning the committed store and a
success report that counts both rows as per-row conversion errors. -/
theorem clockError_not_fatal_counterexample :
    insert_wastewater_samples ⟨[], none⟩ [mkRow "A" 1, mkRow "B" 2]
        (wasteWaterSample_try_from (-1)) =
      (⟨[], none⟩, .ok ⟨2, 2, 0, 0⟩) ∧
    ∀ e, (insert_wastewater_samples ⟨[], none⟩ [mkRow "A" 1, mkRow "B" 2]
        (wasteWaterSample_try_from (-1))).2 ≠ .error e := by
  have h : insert_wastewater_samples ⟨[], none⟩ [mkRow "A" 1, mkRow "B" 2]
      (wasteWaterSample_try_from (-1)) = (⟨[], none⟩, .ok ⟨2, 2, 0, 0⟩) := by rfl
  refine ⟨h, fun e he => ?_⟩
  rw [h] at he
  exact (Except.noConfusion he)

/-- C5 (amended): a wall-clock read failure during normalization (the
clock before the Unix epoch) is treated as a per-row conversion
error, not as a fatal halt: every row of the batch is counted in the
conversion-failure tally and skipped, the run completes, and the
store is left unchanged. -/
theorem clockError_is_per_row (conn : Conn) (rows : List WasteWaterCsvRow)
    (now : Int) (hnow : now < 0) :
    insert_wastewater_samples conn rows (wasteWaterSample_try_from now) =
      (conn, .ok ⟨rows.length, rows.length, 0, 0⟩) := by
  unfold insert_wastewater_samples
  rw [insertSamplesAux_allErrors (wasteWaterSample_try_from now) rows conn 0 0 0
    (fun x _ => by simp [convFails, wasteWaterSample_try_from_clockFail now hnow x])]
  simp

/-- Witness for the amended C5 at a concrete pre-epoch clock. -/
theorem clockError_is_per_row_witness :
    insert_wastewater_samples ⟨[], none⟩ [mkRow "A" 1, mkRow "B" 2]
        (wasteWaterSample_try_from (-1)) = (⟨[], none⟩, .ok ⟨2, 2, 0, 0⟩) ∧
      (-1 : Int) < 0 :=
  ⟨clockError_is_per_row ⟨[], none⟩ [mkRow "A" 1, mkRow "B" 2] (-1) (by decide),
    by decide⟩

/-! ## Claim theorems: per-row conversion errors are non-fatal -/

theorem insertSamplesAux_shift {S E : Type} (tryInto : S → Except E WasteWaterSample) :
    ∀ (xs : List S) (conn : Conn) (t e k : Nat),
      insertSamplesAux tryInto xs conn (t + 1) (e + 1) k =
        (insertSamplesAux tryInto xs conn t e k).map
          (fun r => (r.1, ⟨r.2.total_sample + 1, r.2.errors + 1, r.2.skip,
            r.2.total_insertions⟩)) := by
  intro xs
  induction xs with
  | nil =>
    intro conn t e k
    simp [insertSamplesAux, Except.map, Nat.succ_sub_succ]
  | cons x xs ih =>
    intro conn t e k
    cases hconv : tryInto x with
    | ok sample =>
      simp only [insertSamplesAux, hconv]
      cases hins : insert_wastewater_sample conn sample with
      | ok p =>
        obtain ⟨inserted, conn3⟩ := p
        exact ih conn3 (t + 1) e _
      | error e2 => rfl
    | error err =>
      simp only [insertSamplesAux, hconv]
      exact ih conn (t + 1) (e + 1) k

theorem insertSamplesAux_errElem {S E : Type} (tryInto : S → Except E WasteWaterSample)
    (b : S) (hb : convFails tryInto b = true) (ys : List S) :
    ∀ (xs : List S) (conn : Conn) (t e k : Nat),
      insertSamplesAux tryInto (xs ++ b :: ys) conn t e k =
        (insertSamplesAux tryInto (xs ++ ys) conn t e k).map
          (fun r => (r.1, ⟨r.2.total_sample + 1, r.2.errors + 1, r.2.skip,
            r.2.total_insertions⟩)) := by
  intro xs
  induction xs with
  | nil =>
    intro conn t e k
    cases hconv : tryInto b with
    | ok sample => exfalso; simp [convFails, hconv] at hb
    | error err =>
      simp only [List.nil_append, insertSamplesAux, hconv]
      exact insertSamplesAux_shift tryInto ys conn t e k
  | cons x xs ih =>
    intro conn t e k
    cases hconv : tryInto x with
    | ok sample =>
      simp only [List.cons_append, insertSamplesAux, hconv]
      cases hins : insert_wastewater_sample conn sample with
      | ok p =>
        obtain ⟨inserted, conn3⟩ := p
        exact ih conn3 (t + 1) e _
      | error e2 => rfl
    | error err =>
      simp only [List.cons_append, insertSamplesAux, hconv]
      exact ih conn (t + 1) (e + 1) k

/-- C9: a conversion failure on one input element is non-fatal: if the
batch without the bad element commits with some report, the batch
with the bad element inserted anywhere still processes every other
element identically, commits the same store, and reports the same
counts except that the failure tally and the total are one higher. -/
theorem convError_nonfatal {S E : Type} (conn : Conn) (xs ys : List S) (b : S)
    (tryInto : S → Except E WasteWaterSample)
    (hb : convFails tryInto b = true) (conn2 : Conn) (rep : BatchReport)
    (h : insert_wastewater_samples conn (xs ++ ys) tryInto = (conn2, .ok rep)) :
    insert_wastewater_samples conn (xs ++ b :: ys) tryInto =
      (conn2, .ok ⟨rep.total_sample + 1, rep.errors + 1, rep.skip,
        rep.total_insertions⟩) := by
  unfold insert_wastewater_samples at h ⊢
  cases haux : insertSamplesAux tryInto (xs ++ ys) conn 0 0 0 with
  | error e =>
    rw [haux] at h
    simp at h
  | ok p =>
    obtain ⟨c3, rep3⟩ := p
    rw [haux] at h
    simp only [Prod.mk.injEq, Except.ok.injEq] at h
    obtain ⟨hc, hr⟩ := h
    subst hc
    subst hr
    rw [insertSamplesAux_errElem tryInto b hb ys xs conn 0 0 0, haux]
    rfl

/-- Witness for C9: adding a failed-conversion element to a two-element
batch leaves the committed store unchanged and bumps only the failure
tally and the total. -/
theorem convError_nonfatal_witness :
    insert_wastewater_samples ⟨[], none⟩
        [.ok (mkSample "w1" 1), .error (), .ok (mkSample "w2" 2)] (fun x => x) =
      (⟨[mkSample "w1" 1, mkSample "w2" 2], none⟩, .ok ⟨3, 1, 0, 2⟩) := by
  exact convError_nonfatal ⟨[], none⟩ [.ok (mkSample "w1" 1)] [.ok (mkSample "w2" 2)]
    (.error ()) (fun x => x) (by rfl)
    ⟨[mkSample "w1" 1, mkSample "w2" 2], none⟩ ⟨2, 0, 0, 2⟩ (by rfl)

/-! ## Claim theorems: DST resolution in the row parser -/

theorem localToPacific_ambiguous_lt (ndt : NaiveDateTime) (u1 u2 : PacificInstant)
    (h : localToPacific ndt = .ambiguous u1 u2) : instantLt u1 u2 = true := by
  simp only [localToPacific] at h
  repeat' split at h
  all_goals first
    | exact (MappedLocalTime.noConfusion h)
    | (injection h with h1 h2
       subst h1
       subst h2
       simp only [instantLt, pstShift, pdtShift, Bool.or_eq_true,
         Bool.and_eq_true, decide_eq_true_eq]
       omega)

/-- C6: every timestamp text that parses to a civil date-time which is
ambiguous in US Pacific time (it occurs twice at a fall-back DST
transition) is deterministically resolved by
`deserialize_pdt_datetime` to the later of the two UTC instants. -/
theorem ambiguous_resolves_to_later (s : String) (ndt : NaiveDateTime)
    (u1 u2 : PacificInstant)
    (hparse : parsePacificNaive s = some ndt)
    (hamb : localToPacific ndt = .ambiguous u1 u2) :
    instantLt u1 u2 = true ∧ deserialize_pdt_datetime s = .ok u2 := by
  refine ⟨localToPacific_ambiguous_lt ndt u1 u2 hamb, ?_⟩
  simp [deserialize_pdt_datetime, hparse, hamb]

/-- Witness for C6 at the spec's example `2024-11-03 01:30:00.000000`:
the two UTC instants are 08:30Z (PDT) and 09:30Z (PST) and the parser
returns the later, 09:30Z. -/
theorem ambiguous_resolves_to_later_witness :
    parsePacificNaive "2024-11-03 01:30:00.000000" =
        some ⟨⟨2024, 11, 3⟩, 1, 30, 0, 0⟩ ∧
      localToPacific ⟨⟨2024, 11, 3⟩, 1, 30, 0, 0⟩ =
        .ambiguous ⟨1730622600, 0⟩ ⟨1730626200, 0⟩ ∧
      (instantLt ⟨1730622600, 0⟩ ⟨1730626200, 0⟩ = true ∧
        deserialize_pdt_datetime "2024-11-03 01:30:00.000000" =
          .ok ⟨1730626200, 0⟩) :=
  ⟨by rfl, by rfl,
    ambiguous_resolves_to_later "2024-11-03 01:30:00.000000"
      ⟨⟨2024, 11, 3⟩, 1, 30, 0, 0⟩ ⟨1730622600, 0⟩ ⟨1730626200, 0⟩
      (by rfl) (by rfl)⟩

/-- C7: every timestamp text that parses to a civil date-time which
does not exist in US Pacific time (skipped at a spring-forward DST
transition) makes `deserialize_pdt_datetime` fail with the
invalid-local-time error carrying the offending text, and no fallback
instant is ever produced for it. -/
theorem nonexistent_yields_invalid_local_time (s : String) (ndt : NaiveDateTime)
    (hparse : parsePacificNaive s = some ndt)
    (hnone : localToPacific ndt = .nonexistent) :
    deserialize_pdt_datetime s =
      .error ("Datetime " ++ s ++ " is invalid for Pacific timezone.") ∧
    ∀ t, deserialize_pdt_datetime s ≠ .ok t := by
  have h : deserialize_pdt_datetime s =
      .error ("Datetime " ++ s ++ " is invalid for Pacific timezone.") := by
    simp [deserialize_pdt_datetime, hparse, hnone]
  refine ⟨h, fun t ht => ?_⟩
  rw [h] at ht
  exact (Except.noConfusion ht)

/-- Witness for C7 at the spec's example `2024-03-10 02:30:00.000000`,
a civil time skipped by the 2024 spring-forward transition. -/
theorem nonexistent_yields_invalid_local_time_witness :
    parsePacificNaive "2024-03-10 02:30:00.000000" =
        some ⟨⟨2024, 3, 10⟩, 2, 30, 0, 0⟩ ∧
      localToPacific ⟨⟨2024, 3, 10⟩, 2, 30, 0, 0⟩ = .nonexistent ∧
      (deserialize_pdt_datetime "2024-03-10 02:30:00.000000" =
          .error ("Datetime " ++ "2024-03-10 02:30:00.000000" ++
            " is invalid for Pacific timezone.") ∧
        ∀ t, deserialize_pdt_datetime "2024-03-10 02:30:00.000000" ≠ .ok t) :=
  ⟨by rfl, by rfl,
    nonexistent_yields_invalid_local_time "2024-03-10 02:30:00.000000"
      ⟨⟨2024, 3, 10⟩, 2, 30, 0, 0⟩ (by rfl) (by rfl)⟩

/-! ## Claim theorems: the trend query -/

theorem dateLe_refl (a : NaiveDate) : dateLe a a = true := by
  simp [dateLe]

theorem dateLe_total (a b : NaiveDate) : dateLe a b = true ∨ dateLe b a = true := by
  simp [dateLe]
  omega

theorem dateLe_trans (a b c : NaiveDate) (h1 : dateLe a b = true)
    (h2 : dateLe b c = true) : dateLe a c = true := by
  simp [dateLe] at *
  omega

instance : IsTotal WasteWaterSample trendOrder :=
  ⟨fun a b => dateLe_total b.sample_collection_date a.sample_collection_date⟩

instance : IsTrans WasteWaterSample trendOrder :=
  ⟨fun _ _ _ hab hbc => dateLe_trans _ _ _ hbc hab⟩

/-- C8: for every (county, pathogen-target) filter the trend query
returns the most-recent matching sample by collection date together
with the signed difference latest minus previous; with exactly one
matching row it reports that row with the difference and previous
date absent ("no prior data"), and with zero matching rows it reports
`none` ("no data"), distinct from the one-row case. -/
theorem trend_query_spec (table : List WasteWaterSample) (county variant : String) :
    (trendMatches table county variant = [] →
      trend_query table county variant = none) ∧
    (∀ m, trendMatches table county variant = [m] →
      trend_query table county variant =
        some (m.normalized_pathogen_concentration, m.sample_collection_date,
          none, none)) ∧
    (2 ≤ (trendMatches table county variant).length →
      ∃ s1 s2 rest, rankedSamples table county variant = s1 :: s2 :: rest ∧
        s1 ∈ trendMatches table county variant ∧
        s2 ∈ trendMatches table county variant ∧
        (∀ x ∈ trendMatches table county variant,
          dateLe x.sample_collection_date s1.sample_collection_date = true) ∧
        (∀ x ∈ s2 :: rest,
          dateLe x.sample_collection_date s2.sample_collection_date = true) ∧
        trend_query table county variant =
          some (s1.normalized_pathogen_concentration, s1.sample_collection_date,
            some (s1.normalized_pathogen_concentration -
              s2.normalized_pathogen_concentration),
            some s2.sample_collection_date)) := by
  refine ⟨?_, ?_, ?_⟩
  · intro h
    simp [trend_query, rankedSamples, h]
  · intro m h
    simp [trend_query, rankedSamples, h]
  · intro h2
    have hperm := List.perm_insertionSort trendOrder (trendMatches table county variant)
    have hsorted := List.sorted_insertionSort trendOrder (trendMatches table county variant)
    have hlen : 2 ≤ (List.insertionSort trendOrder (trendMatches table county variant)).length := by
      rw [hperm.length_eq]
      exact h2
    obtain ⟨s1, s2, rest, hL⟩ : ∃ s1 s2 rest,
        List.insertionSort trendOrder (trendMatches table county variant) =
          s1 :: s2 :: rest := by
      cases hc : List.insertionSort trendOrder (trendMatches table county variant) with
      | nil => rw [hc] at hlen; simp at hlen
      | cons a l =>
        cases hc2 : l with
        | nil => rw [hc, hc2] at hlen; simp at hlen
        | cons b l2 => exact ⟨a, b, l2, rfl⟩
    rw [hL] at hperm hsorted
    have hmem1 : s1 ∈ trendMatches table county variant :=
      hperm.mem_iff.mp (by simp)
    have hmem2 : s2 ∈ trendMatches table county variant :=
      hperm.mem_iff.mp (by simp)
    refine ⟨s1, s2, rest, by rw [rankedSamples, hL], hmem1, hmem2, ?_, ?_, ?_⟩
    · intro x hx
      have hx2 : x ∈ s1 :: s2 :: rest := hperm.mem_iff.mpr hx
      rcases List.mem_cons.mp hx2 with he | hx3
      · rw [he]; exact dateLe_refl _
      · exact List.rel_of_sorted_cons hsorted x hx3
    · intro x hx
      rcases List.mem_cons.mp hx with he | hx3
      · rw [he]; exact dateLe_refl _
      · exact List.rel_of_sorted_cons hsorted.of_cons x hx3
    · simp only [trend_query, rankedSamples, hL]

/-- Witness for C8 on a three-row store with two rows matching the
(King, RSV) filter: the query returns the 2024-06-02 row, the signed
difference `7 - 4 = 3`, and the previous date 2024-06-01. -/
theorem trend_query_spec_witness :
    2 ≤ (trendMatches c8Table "King" "RSV").length ∧
    (∃ s1 s2 rest, rankedSamples c8Table "King" "RSV" = s1 :: s2 :: rest ∧
      s1 ∈ trendMatches c8Table "King" "RSV" ∧
      s2 ∈ trendMatches c8Table "King" "RSV" ∧
      (∀ x ∈ trendMatches c8Table "King" "RSV",
        dateLe x.sample_collection_date s1.sample_collection_date = true) ∧
      (∀ x ∈ s2 :: rest,
        dateLe x.sample_collection_date s2.sample_collection_date = true) ∧
      trend_query c8Table "King" "RSV" =
        some (s1.normalized_pathogen_concentration, s1.sample_collection_date,
          some (s1.normalized_pathogen_concentration -
            s2.normalized_pathogen_concentration),
          some s2.sample_collection_date)) :=
  ⟨by decide, (trend_query_spec c8Table "King" "RSV").2.2 (by decide)⟩

/-! ## Claim theorems: the assembled pipeline -/

/-- C10: in the assembled pipeline a row that fails CSV parsing is
silently discarded before reaching the store: the run with the failed
row behaves exactly like the run without it — it does not abort, and
the parse failure leaves no trace in the batch's failure tally. -/
theorem parse_failures_dropped {ParseErr : Type} (conn : Conn)
    (xs ys : List (Except ParseErr WasteWaterCsvRow)) (perr : ParseErr) (now : Int) :
    ingest conn (xs ++ .error perr :: ys) now = ingest conn (xs ++ ys) now := by
  unfold ingest
  congr 1
  simp [List.filterMap_append, Except.toOption]

end Hygieia
